import Mathlib

/-!
# Verification of the `pdfops` embedded metadata store (`src/pdfmeta.py`)

This file gives a shallow embedding of the `PDFMeta` class of `src/pdfmeta.py`
and proves / refutes the frozen claims about it.

Modelling conventions:

* Python JSON-shaped values are the inductive `JsonVal` (floats do not occur in
  any claim and are not modelled; JSON numbers are `int`).
* Python exceptions are modelled with `Except PyErr`; a `try/except Exception`
  block is a `match` on the `Except` result.  The error constructors record
  which Python exception class a failing primitive raises.
* Python dicts are association lists in insertion order (`.obj`); `d[k]`,
  `d[k] = v`, `d.get(k, default)`, `k in d` are `dictGetE`, `setv`,
  `dictGet?`/`getD`, `hasKey`.  Keys produced by `json.loads` or by the code
  itself are unique, which is the only situation the claims exercise.
* The pyHanko host-document collaborator (PdfFileReader /
  IncrementalPdfFileWriter) is modelled at the object-graph level: a parsed
  buffer is an arena of indirect objects plus the two private catalog entries
  `/ChepssPdfmetaLatest` and `/ChepssPdfmetaHistory`.  A buffer whose parse
  fails is `⟨none⟩`.  `json.dumps`/`json.loads` and the stream
  encode/decode round trip are stdlib/pyHanko contracts, so a stream payload
  is carried as the decoded `Option JsonVal` (`none` = the bytes do not decode
  as UTF-8 JSON).
* Python object identity (`id(obj)`), which the diagnostics dedup key uses,
  is modelled by a `tok : Nat` field on every host value: two occurrences of
  a reference parsed from the bytes are distinct Python objects, hence carry
  distinct tokens.
-/

set_option autoImplicit false

namespace PdfOps

/-- JSON-shaped Python values (record contents, the metadata dict itself). -/
inductive JsonVal where
  | null
  | bool (b : Bool)
  | int (n : Int)
  | str (s : String)
  | arr (elems : List JsonVal)
  | obj (fields : List (String × JsonVal))

/-- Python exception classes raised by the primitives the store uses. -/
inductive PyErr where
  | typeError
  | keyError
  | valueError
  | attrError
  | pdfError
  deriving Repr, DecidableEq

/-- First binding of `key` in an insertion-ordered dict. -/
def getField? : List (String × JsonVal) → String → Option JsonVal
  | [], _ => none
  | (k, v) :: fs, key => if k = key then some v else getField? fs key

/-- Python `d[key] = v`: overwrite in place, keep insertion order, append if new. -/
def setField : List (String × JsonVal) → String → JsonVal → List (String × JsonVal)
  | [], key, v => [(key, v)]
  | (k, w) :: fs, key, v =>
    if k = key then (key, v) :: fs else (k, w) :: setField fs key v

/-- Python `isinstance(m, dict)`. -/
def JsonVal.isDict : JsonVal → Bool
  | .obj _ => true
  | _ => false

/-- Python `m.get(key)` on a dict; `none` for a missing key or a non-dict
(the claims only reach it on dicts, where it is exact). -/
def dictGet? : JsonVal → String → Option JsonVal
  | .obj fs, key => getField? fs key
  | _, _ => none

/-- Python `key in m` (used only after an `isinstance(m, dict)` guard). -/
def hasKey (m : JsonVal) (key : String) : Bool :=
  (dictGet? m key).isSome

/-- Python `m[key]`: `KeyError` when missing, `TypeError` on a non-dict. -/
def dictGetE : JsonVal → String → Except PyErr JsonVal
  | .obj fs, key =>
    match getField? fs key with
    | some v => .ok v
    | none => .error .keyError
  | _, _ => .error .typeError

/-- Python `m[key] = v`.  Every assignment in the source is preceded by a
successful read of the same dict, so the non-dict case is unreachable and
left as the identity. -/
def setv : JsonVal → String → JsonVal → JsonVal
  | .obj fs, key, v => .obj (setField fs key v)
  | m, _, _ => m

/-- Python integer coercion for `==` / `+=` (`bool` is an `int` subclass). -/
def pyAsInt : JsonVal → Option Int
  | .int n => some n
  | .bool b => some (if b then 1 else 0)
  | _ => none

/-- Python `v == n` for an `int` right-hand side (cross-type `==` is `False`). -/
def pyIntEq (v : JsonVal) (n : Int) : Bool :=
  pyAsInt v = some n

/-- Python `v == t` for a `str` right-hand side. -/
def pyStrEq (v : JsonVal) (t : String) : Bool :=
  match v with
  | .str u => u = t
  | _ => false

/-- `copy.deepcopy` on immutable model values is the identity. -/
def deepcopy (v : JsonVal) : JsonVal := v

/-- `PDFMeta._in_ns`: `ns is None or meta.get("ns", "") == ns`. -/
def in_ns (meta : JsonVal) (ns : Option String) : Bool :=
  match ns with
  | none => true
  | some t => pyStrEq ((dictGet? meta "ns").getD (.str "")) t

/-! ### Python string primitives used by `_mark_dirty`

`String.splitOn` does not reduce in the kernel, so `str.split(".")` and
`".".join` are modelled directly on character lists with the exact Python
semantics for a one-character separator. -/

/-- Character-level worker for `str.split(".")`. -/
def splitDotAux : List Char → List (List Char)
  | [] => [[]]
  | c :: cs =>
    let rest := splitDotAux cs
    if c = '.' then [] :: rest
    else
      match rest with
      | g :: gs => (c :: g) :: gs
      | [] => [[c]]

/-- Python `s.split(".")`: e.g. `"1.0.0" ↦ ["1","0","0"]`, `"" ↦ [""]`,
`"weird" ↦ ["weird"]`. -/
def splitDot (s : String) : List String :=
  (splitDotAux s.toList).map (fun cs => String.mk cs)

/-- Python `".".join(parts)`. -/
def joinDot : List String → String
  | [] => ""
  | [s] => s
  | s :: rest => s ++ "." ++ joinDot rest

/-- Decimal digit-string value; `none` for an empty or non-digit string. -/
def digitsVal (cs : List Char) : Option Nat :=
  if cs = [] then none
  else
    cs.foldl
      (fun acc c =>
        match acc with
        | none => none
        | some n =>
          if '0' ≤ c ∧ c ≤ '9' then some (n * 10 + (c.toNat - '0'.toNat))
          else none)
      (some 0)

/-- Python `int(s)` on a string (sign and decimal digits; `none` = `ValueError`). -/
def pyParseInt (s : String) : Option Int :=
  match s.toList with
  | '-' :: cs => (digitsVal cs).map (fun n => -(n : Int))
  | '+' :: cs => (digitsVal cs).map (fun n => (n : Int))
  | cs => (digitsVal cs).map (fun n => (n : Int))

/-- Python `str(n)` on an integer. -/
def pyStr (n : Int) : String := toString n

/-! ### Host-buffer (pyHanko) object-graph model -/

/-- A value reachable from the host document's catalog.  `ref` is a pyHanko
`IndirectObject` (with `idnum`, `generation` and a Python-identity token);
the other constructors are direct objects: a stream (has `.get` and `.data`),
a plain dictionary (has `.get`, no `.data`), an array, and anything else
(`NullObject`, numbers, …: no `.get`, no `.data`).  `typeVal` is the `str()`
of the object's `/Type` entry when present; `payload` is the stream's data
decoded as UTF-8 JSON (`none` = the bytes do not decode/parse). -/
inductive HostVal where
  | ref (idnum gen tok : Nat)
  | stream (tok : Nat) (typeVal : Option String) (payload : Option JsonVal)
  | dictObj (tok : Nat) (typeVal : Option String)
  | arrObj (tok : Nat) (items : List HostVal)
  | nullObj (tok : Nat)

/-- A successfully parsed host buffer: the arena of indirect objects keyed by
`(idnum, generation)` and the two private catalog entries. -/
structure HostRoot where
  arena : List (Nat × Nat × HostVal)
  latest : Option HostVal
  history : Option HostVal

/-- A host byte buffer, as far as the store can observe it: either it parses
to a root (`PdfFileReader` succeeds) or it does not. -/
structure HostBuf where
  parsed : Option HostRoot

/-- Arena lookup by `(idnum, generation)`. -/
def lookupArena : List (Nat × Nat × HostVal) → Nat → Nat → Option HostVal
  | [], _, _ => none
  | (i, g, v) :: rest, i', g' =>
    if i = i' ∧ g = g' then some v else lookupArena rest i' g'

/-- `PDFMeta._deref` / `get_object()`: resolve an indirect reference (pyHanko
resolves a dangling reference to `NullObject`); direct objects are returned
unchanged. -/
def deref (root : HostRoot) : HostVal → HostVal
  | .ref i g _ => (lookupArena root.arena i g).getD (.nullObj 0)
  | v => v

/-- `target.get(_PDFMETA_TYPE_KEY) if hasattr(target, "get") else None`,
already passed through `str()`. -/
def getTypeVal : HostVal → Option String
  | .stream _ tv _ => tv
  | .dictObj _ tv => tv
  | _ => none

/-- `PDFMeta._read_stream_bytes` followed by `raw.decode("utf-8")` and
`json.loads`: `TypeError` when the object has no `.data`, `ValueError`
(UnicodeDecodeError / JSONDecodeError) when the bytes do not parse. -/
def streamPayload : HostVal → Except PyErr JsonVal
  | .stream _ _ (some p) => .ok p
  | .stream _ _ none => .error .valueError
  | _ => .error .typeError

/-- `_PDFMETA_TYPE_VAL`. -/
def PDFMETA_TYPE_VAL : String := "/ChepssPdfmeta"

/-- `PDFMeta.VERSION`. -/
def VERSION : String := "1.0"

/-- `PDFMeta._create_clean_meta`: the fresh metadata dict (the caller also
clears `_has_meta`, see `read_metadata`). -/
def create_clean_meta (corrupt : Int) : JsonVal :=
  .obj [("v", .str (VERSION ++ ".0")), ("nid", .int 0), ("cr", .int corrupt),
        ("meta", .arr [])]

/-! ### `PDFMeta` in-memory state and the load path -/

/-- The mutable state of a `PDFMeta` instance: `self.metadata`,
`self._changed_meta`, `self._has_meta`, `self.pdf_data`. -/
structure PDFMeta where
  metadata : JsonVal
  changed_meta : Bool
  has_meta : Bool
  pdf_data : HostBuf

/-- The history fallback of `_read_metadata`: deref `/ChepssPdfmetaHistory`
and take its last element when it is a non-empty array. -/
def histFallback (root : HostRoot) : Option HostVal :=
  match root.history with
  | none => none
  | some h =>
    match deref root h with
    | .arrObj _ items => items.getLast?
    | _ => none

/-- The minimal structural validation of `_read_metadata`:
`isinstance(meta, dict) and "meta" in meta and "nid" in meta`
(the source checks nothing about the *types* of the two fields). -/
def validMinimal (m : JsonVal) : Bool :=
  m.isDict && hasKey m "meta" && hasKey m "nid"

/-- Steps 4–5 of the load algorithm once the ownership check passed: read
and parse the payload, run the minimal validation, adopt or fall back. -/
def adoptPayload (target : HostVal) : Except PyErr (JsonVal × Bool) :=
  match streamPayload target with
  | .error e => .error e
  | .ok meta =>
    if validMinimal meta then .ok (meta, true)
    else .ok (create_clean_meta 1, false)

/-- Step 3 onwards of the load algorithm for a resolved candidate `tv`:
`target = self._deref(target)`, the ownership check
(`t = target.get(_PDFMETA_TYPE_KEY) if hasattr(target, "get") else None;
if t is not None and str(t) != _PDFMETA_TYPE_VAL: corrupt`), then
`adoptPayload`. -/
def readTarget (root : HostRoot) (tv : HostVal) : Except PyErr (JsonVal × Bool) :=
  match getTypeVal (deref root tv) with
  | some t =>
    if t ≠ PDFMETA_TYPE_VAL then .ok (create_clean_meta 1, false)
    else adoptPayload (deref root tv)
  | none => adoptPayload (deref root tv)

/-- Body of the `try:` block of `PDFMeta._read_metadata`: prefer the
`Latest` pointer, fall back to the last element of a non-empty `History`
array, otherwise create fresh clean metadata.  The result pairs the
adopted/created metadata dict with the resulting `_has_meta` flag
(`true` = adopted a prior snapshot, `false` = `_create_clean_meta` ran). -/
def tryReadMetadata (buf : HostBuf) : Except PyErr (JsonVal × Bool) :=
  match buf.parsed with
  | none => .error .pdfError
  | some root =>
    match root.latest with
    | some tv => readTarget root tv
    | none =>
      match histFallback root with
      | some tv => readTarget root tv
      | none => .ok (create_clean_meta 0, false)

/-- `PDFMeta._read_metadata`: the surrounding `try/except Exception` turns
every failure into the fresh-corrupt outcome. -/
def read_metadata (buf : HostBuf) : JsonVal × Bool :=
  match tryReadMetadata buf with
  | .ok r => r
  | .error _ => (create_clean_meta 1, false)

/-- `PDFMeta.__init__` (after the optional base64 decode, which is a stdlib
contract): `_changed_meta = False`, `_has_meta = True`, then
`_read_metadata`. -/
def initStore (buf : HostBuf) : PDFMeta :=
  { metadata := (read_metadata buf).1
    changed_meta := false
    has_meta := (read_metadata buf).2
    pdf_data := buf }

/-! ### Mutations -/

/-- `PDFMeta._mark_dirty`.  Source:

```
if not self._changed_meta:
    if self._has_meta:
        version = self.metadata["v"].split(".")
        if len(version) > 1:
            last = version[-1]
            new_version = ".".join(version[:-1] + [str(int(last) + 1)])
        else:
            new_version = version + ".0"
        self.metadata["v"] = new_version
    self._changed_meta = True
```

Note that in the fallback branch `version` is a *list* (the result of
`.split(".")`), so `version + ".0"` is `list + str`, which raises
`TypeError` before anything is assigned.  A non-string `"v"` raises
`AttributeError` at `.split`; a non-numeric last segment raises
`ValueError` at `int(last)`. -/
def mark_dirty (s : PDFMeta) : Except PyErr PDFMeta :=
  if s.changed_meta then .ok s
  else if s.has_meta then
    match dictGetE s.metadata "v" with
    | .error e => .error e
    | .ok (.str vstr) =>
      -- `version := splitDot vstr`, `last := version[-1]`,
      -- `new_version := ".".join(version[:-1] + [str(int(last) + 1)])`
      if (splitDot vstr).length > 1 then
        match pyParseInt (((splitDot vstr).getLast?).getD "") with
        | none => .error .valueError
        | some k =>
          .ok { s with
                metadata := setv s.metadata "v"
                  (.str (joinDot ((splitDot vstr).dropLast ++ [pyStr (k + 1)]))),
                changed_meta := true }
      else
        .error .typeError
    | .ok _ => .error .attrError
  else .ok { s with changed_meta := true }

/-- `PDFMeta._get_new_id`: returns the current `nid` and the metadata dict
with `nid` incremented (`self.metadata["nid"] += 1`; a non-numeric `nid`
raises `TypeError`). -/
def get_new_id (md : JsonVal) : Except PyErr (Int × JsonVal) :=
  match dictGetE md "nid" with
  | .error e => .error e
  | .ok nv =>
    match pyAsInt nv with
    | some n => .ok (n, setv md "nid" (.int (n + 1)))
    | none => .error .typeError

/-- The record dict built by `PDFMeta.meta_add`. -/
def mkRecord (uid : Int) (ns name : String) (obj : JsonVal) : JsonVal :=
  .obj [("id", .int uid), ("ns", .str ns), ("name", .str name),
        ("content", deepcopy obj)]

/-- `PDFMeta.meta_add`: allocate the id, build the record, append it to
`self.content` (= `self.metadata["meta"]`, an `AttributeError` if that is
not a list), then `_mark_dirty`; returns the new state and the record. -/
def meta_add (s : PDFMeta) (name : String) (obj : JsonVal) (ns : String := "") :
    Except PyErr (PDFMeta × JsonVal) :=
  match get_new_id s.metadata with
  | .error e => .error e
  | .ok (uid, md1) =>
    match dictGetE md1 "meta" with
    | .error e => .error e
    | .ok (.arr l) =>
      match mark_dirty { s with
          metadata := setv md1 "meta" (.arr (l ++ [mkRecord uid ns name obj])) } with
      | .error e => .error e
      | .ok s1 => .ok (s1, mkRecord uid ns name obj)
    | .ok _ => .error .attrError

/-- The `while i < len(self.content):` loop of `PDFMeta.meta_remove_id`,
with explicit fuel.  The source loop body is

```
meta = self.content[i]
if meta.get("id") == uid and self._in_ns(meta, ns):
    del self.content[i]
    self._mark_dirty()
    return True
```

with **no** `i += 1` on the non-matching path (unlike `meta_remove_name`),
so a non-matching element at index `i` re-runs the loop with identical
state.  `none` = the fuel ran out, i.e. the loop did not terminate within
`fuel` iterations; `some (content', removed)` = the loop returned. -/
def removeIdLoop (uid : Int) (ns : Option String) (content : List JsonVal)
    (i : Nat) : Nat → Option (List JsonVal × Bool)
  | 0 => none
  | fuel + 1 =>
    if h : i < content.length then
      let m := content.get ⟨i, h⟩
      if pyIntEq ((dictGet? m "id").getD .null) uid && in_ns m ns then
        some (content.eraseIdx i, true)
      else
        removeIdLoop uid ns content i fuel
    else
      some (content, false)

/-- `PDFMeta.meta_remove_id`.  `Except` for the Python exceptions of the
content access, then `Option`: `none` = the loop ran out of fuel (the call
does not terminate), `some (s', removed)` = the call returned. -/
def meta_remove_id (s : PDFMeta) (uid : Int) (ns : Option String) (fuel : Nat) :
    Except PyErr (Option (PDFMeta × Bool)) :=
  match dictGetE s.metadata "meta" with
  | .error e => .error e
  | .ok (.arr l) =>
    match removeIdLoop uid ns l 0 fuel with
    | none => .ok none
    | some (l', true) =>
      match mark_dirty { s with metadata := setv s.metadata "meta" (.arr l') } with
      | .error e => .error e
      | .ok s1 => .ok (some (s1, true))
    | some (_, false) => .ok (some (s, false))
  | .ok _ => .error .typeError

/-! ### Flush -/

/-- Largest `idnum` present in the arena. -/
def maxIdnum (arena : List (Nat × Nat × HostVal)) : Nat :=
  arena.foldr (fun e acc => max e.1 acc) 0

/-- The `IncrementalPdfFileWriter.add_object` allocation: a fresh object
number not used by any prior object. -/
def freshIdnum (arena : List (Nat × Nat × HostVal)) : Nat :=
  maxIdnum arena + 1

/-- Re-assign the Python-identity token of one occurrence of a value.  When
the buffer produced by `write` is parsed again, every textual occurrence of
an indirect reference becomes a fresh `IndirectObject` instance, so each
occurrence gets its own token. -/
def retok : HostVal → Nat → HostVal
  | .ref i g _, t => .ref i g t
  | .stream _ tv p, t => .stream t tv p
  | .dictObj _ tv, t => .dictObj t tv
  | .arrObj _ items, t => .arrObj t items
  | .nullObj _, t => .nullObj t

/-- Tokens for the history array as the next parse of the written buffer
sees it: item `k` is a fresh instance with token `k + 1` (token `0` is the
catalog's `Latest` occurrence). -/
def retokList (items : List HostVal) : List HostVal :=
  (items.enum).map (fun p => retok p.2 (p.1 + 1))

/-- `PDFMeta._write_metadata`: serialize `self.metadata` as the payload of a
new stream object tagged `/ChepssPdfmeta`, add it as a new indirect object,
point `Latest` at it, append it to `History` (an absent or non-array prior
history contributes no items), write the incremental revision and clear the
dirty flag.  A buffer that does not parse makes the writer constructor
raise, and that error is *not* swallowed (flush failures surface). -/
def write_metadata (s : PDFMeta) : Except PyErr PDFMeta :=
  match s.pdf_data.parsed with
  | none => .error .pdfError
  | some root =>
    let nid := freshIdnum root.arena
    let streamObj : HostVal := .stream 0 (some PDFMETA_TYPE_VAL) (some s.metadata)
    let prevItems : List HostVal :=
      match root.history with
      | none => []
      | some h =>
        match deref root h with
        | .arrObj _ items => items
        | _ => []
    let newRoot : HostRoot :=
      { arena := root.arena ++ [(nid, 0, streamObj)]
        latest := some (.ref nid 0 0)
        history := some (.arrObj 0 (retokList (prevItems ++ [.ref nid 0 0]))) }
    .ok { s with pdf_data := { parsed := some newRoot }, changed_meta := false }

/-- `PDFMeta.get_pdf`: flush first when dirty, then return the bytes. -/
def get_pdf (s : PDFMeta) : Except PyErr (PDFMeta × HostBuf) :=
  if s.changed_meta then
    match write_metadata s with
    | .ok s1 => .ok (s1, s1.pdf_data)
    | .error e => .error e
  else .ok (s, s.pdf_data)

/-! ### Diagnostics: `meta_dump_all` -/

/-- The dedup key of `_iter_meta_stream_candidates._push`:
`(getattr(obj, "idnum", None), getattr(obj, "generation", None), id(obj))`.
Only an `IndirectObject` has `idnum`/`generation`; every value has `id()`. -/
def pushKey : HostVal → Option Nat × Option Nat × Nat
  | .ref i g t => (some i, some g, t)
  | .stream t _ _ => (none, none, t)
  | .dictObj t _ => (none, none, t)
  | .arrObj t _ => (none, none, t)
  | .nullObj t => (none, none, t)

/-- The raw `(source, obj)` sequence `_iter_meta_stream_candidates` pushes:
`Latest` first, then each element of the deref'd `History` array. -/
def rawCandidates (root : HostRoot) : List (String × HostVal) :=
  (match root.latest with
   | some l => [("latest", l)]
   | none => []) ++
  (match root.history with
   | none => []
   | some h =>
     match deref root h with
     | .arrObj _ items => items.map (fun it => ("history", it))
     | _ => [])

/-- `_push`'s dedup-and-deref over the raw sequence: skip a candidate whose
key was already seen, otherwise yield `(source, deref obj)`. -/
def dedupCandidates (root : HostRoot) : List (String × HostVal) →
    List (Option Nat × Option Nat × Nat) → List (String × HostVal)
  | [], _ => []
  | (src, obj) :: rest, seen =>
    let key := pushKey obj
    if key ∈ seen then dedupCandidates root rest seen
    else (src, deref root obj) :: dedupCandidates root rest (key :: seen)

/-- `PDFMeta._iter_meta_stream_candidates`. -/
def iter_meta_stream_candidates (root : HostRoot) : List (String × HostVal) :=
  dedupCandidates root (rawCandidates root) []

/-- `PDFMeta._is_our_meta_stream` with `allow_missing_type = True`: `False`
without a `.get` attribute, `True` with no `/Type`, else tag equality. -/
def is_our_meta_stream : HostVal → Bool
  | .stream _ tv _ =>
    match tv with
    | none => true
    | some t => t = PDFMETA_TYPE_VAL
  | .dictObj _ tv =>
    match tv with
    | none => true
    | some t => t = PDFMETA_TYPE_VAL
  | _ => false

/-- Per-candidate outcome recorded by `meta_dump_all`. -/
inductive DumpStatus where
  | parsed
  | skipped
  | error
  deriving Repr, DecidableEq

/-- Classification of one deref'd candidate in `meta_dump_all`: not ours →
`skipped`; ours but unreadable / undecodable / non-dict payload → `error`;
ours with a JSON-object payload → `parsed`.  The second component is
whether the candidate was `accepted` (counted after the ownership check). -/
def classifyCandidate : HostVal → DumpStatus × Bool
  | v =>
    if is_our_meta_stream v then
      match v with
      | .stream _ _ (some m) => (if m.isDict then (.parsed, true) else (.error, true))
      | _ => (.error, true)
    else (.skipped, false)

/-- The `summary` counters of the `meta_dump_all` report. -/
structure DumpSummary where
  candidates : Nat
  accepted : Nat
  parsed : Nat
  skipped : Nat
  errors : Nat
  deriving Repr, DecidableEq

/-- Accumulate one candidate into the summary. -/
def addCandidate (acc : DumpSummary) (v : HostVal) : DumpSummary :=
  let acc := { acc with candidates := acc.candidates + 1 }
  match classifyCandidate v with
  | (.parsed, _) =>
    { acc with accepted := acc.accepted + 1, parsed := acc.parsed + 1 }
  | (.skipped, _) => { acc with skipped := acc.skipped + 1 }
  | (.error, true) =>
    { acc with accepted := acc.accepted + 1, errors := acc.errors + 1 }
  | (.error, false) => { acc with errors := acc.errors + 1 }

/-- `PDFMeta.meta_dump_all`, restricted to the top-level `ok` flag and the
`summary` counters (the per-item list carries the same classification).  An
unparseable buffer is the top-level `fatal` outcome: `ok = False` and one
error counted. -/
def meta_dump_all (buf : HostBuf) : Bool × DumpSummary :=
  match buf.parsed with
  | none =>
    (false, { candidates := 0, accepted := 0, parsed := 0, skipped := 0, errors := 1 })
  | some root =>
    let cands := iter_meta_stream_candidates root
    (true,
      cands.foldl (fun acc p => addCandidate acc p.2)
        { candidates := 0, accepted := 0, parsed := 0, skipped := 0, errors := 0 })

/-! ### Derived views and operation sequences used by the claims -/

/-- The record list of a store (`self.metadata["meta"]` when it is a list). -/
def metaList (s : PDFMeta) : List JsonVal :=
  match dictGet? s.metadata "meta" with
  | some (.arr l) => l
  | _ => []

/-- The `"id"` entries of a record list. -/
def recIds (l : List JsonVal) : List (Option JsonVal) :=
  l.map (fun m => dictGet? m "id")

/-- The current version string binding. -/
def versionOf (s : PDFMeta) : Option JsonVal :=
  dictGet? s.metadata "v"

/-- One sequential `meta_add` per `(name, content, ns)` triple. -/
def addSeq (s : PDFMeta) : List (String × JsonVal × String) → Except PyErr PDFMeta
  | [] => .ok s
  | (name, obj, ns) :: rest =>
    match meta_add s name obj ns with
    | .ok (s1, _) => addSeq s1 rest
    | .error e => .error e

/-- The arithmetic id sequence `[k, k+1, …, k+n-1]` as record-id entries. -/
def idRange (k : Int) : Nat → List (Option JsonVal)
  | 0 => []
  | n + 1 => some (.int k) :: idRange (k + 1) n

/-- A store-level API call, for lifetime statements. -/
inductive StoreOp where
  | add (name : String) (obj : JsonVal) (ns : String)
  | removeId (uid : Int) (ns : Option String) (fuel : Nat)
  | flush

/-- Run one operation; `ok none` = the operation did not terminate within
its fuel. -/
def runOp (s : PDFMeta) : StoreOp → Except PyErr (Option PDFMeta)
  | .add name obj ns =>
    match meta_add s name obj ns with
    | .ok (s1, _) => .ok (some s1)
    | .error e => .error e
  | .removeId uid ns fuel =>
    match meta_remove_id s uid ns fuel with
    | .ok (some (s1, _)) => .ok (some s1)
    | .ok none => .ok none
    | .error e => .error e
  | .flush =>
    match get_pdf s with
    | .ok (s1, _) => .ok (some s1)
    | .error e => .error e

/-- Run a sequence of operations, stopping at the first failure or
non-termination. -/
def runOps (s : PDFMeta) : List StoreOp → Except PyErr (Option PDFMeta)
  | [] => .ok (some s)
  | op :: rest =>
    match runOp s op with
    | .ok (some s1) => runOps s1 rest
    | .ok none => .ok none
    | .error e => .error e

/-! ### Concrete instances used by counterexamples and witnesses -/

/-- An empty but well-formed host buffer (no metadata yet). -/
def emptyBuf : HostBuf := ⟨some ⟨[], none, none⟩⟩

/-- A buffer whose byte parse fails. -/
def badBuf : HostBuf := ⟨none⟩

/-- A loaded store at version `"1.0.0"` with no records, clean. -/
def loadedStore : PDFMeta :=
  { metadata := .obj [("v", .str "1.0.0"), ("nid", .int 0), ("cr", .int 0),
      ("meta", .arr [])]
    changed_meta := false
    has_meta := true
    pdf_data := emptyBuf }

/-- A loaded store whose version string has no `"."` separator. -/
def weirdStore : PDFMeta :=
  { metadata := .obj [("v", .str "weird"), ("nid", .int 0), ("cr", .int 0),
      ("meta", .arr [])]
    changed_meta := false
    has_meta := true
    pdf_data := emptyBuf }

/-- A store holding exactly one record, with id 0. -/
def oneRecStore : PDFMeta :=
  { metadata := .obj [("v", .str "1.0.0"), ("nid", .int 1), ("cr", .int 0),
      ("meta", .arr [mkRecord 0 "" "a" (.obj [])])]
    changed_meta := false
    has_meta := false
    pdf_data := emptyBuf }

/-- `oneRecStore` after its record is removed by `meta_remove_id … 0`. -/
def removedStore : PDFMeta :=
  { oneRecStore with
    metadata := setv oneRecStore.metadata "meta" (.arr [])
    changed_meta := true }

/-- A snapshot payload whose `meta` field is a number and whose `nid` field
is a string. -/
def badTypesPayload : JsonVal := .obj [("meta", .int 3), ("nid", .str "x")]

/-- Buffer whose `Latest` snapshot carries `badTypesPayload` under the
store's own type tag. -/
def badTypesBuf : HostBuf :=
  ⟨some ⟨[(1, 0, .stream 0 (some PDFMETA_TYPE_VAL) (some badTypesPayload))],
    some (.ref 1 0 0), none⟩⟩

/-- Buffer whose `Latest` pointer resolves to an object tagged with a
foreign type value. -/
def foreignBuf : HostBuf :=
  ⟨some ⟨[(5, 0, .stream 0 (some "/Other") (some (.obj [])))],
    some (.ref 5 0 0), none⟩⟩

/-- Buffer in which `Latest` and `History[0]` are two distinct parsed
reference instances (identity tokens 100 and 101) to the same snapshot
object `(5, 0)` — exactly what parsing a flushed buffer produces. -/
def sharedSnapshotBuf : HostBuf :=
  ⟨some ⟨[(5, 0, .stream 0 (some PDFMETA_TYPE_VAL) (some (create_clean_meta 0)))],
    some (.ref 5 0 100), some (.arrObj 7 [.ref 5 0 101])⟩⟩

/-- The store after `meta_add "sig" {"x": 1} ""` on a store freshly loaded
from the empty buffer. -/
def rtStore1 : PDFMeta :=
  { metadata := .obj [("v", .str "1.0.0"), ("nid", .int 1), ("cr", .int 0),
      ("meta", .arr [mkRecord 0 "" "sig" (.obj [("x", .int 1)])])]
    changed_meta := true
    has_meta := false
    pdf_data := emptyBuf }

/-- The buffer produced by flushing `rtStore1`. -/
def rtOut : HostBuf :=
  ⟨some ⟨[(1, 0, .stream 0 (some PDFMETA_TYPE_VAL) (some rtStore1.metadata))],
    some (.ref 1 0 0), some (.arrObj 0 [.ref 1 0 1])⟩⟩

/-- `rtStore1` after the flush. -/
def rtStore2 : PDFMeta := { rtStore1 with changed_meta := false, pdf_data := rtOut }

/-- add, flush, add again — a fresh store's lifetime across two dirty
episodes. -/
def c10Ops : List StoreOp := [.add "a" .null "", .flush, .add "b" .null ""]

/-- The buffer after the `flush` of `c10Ops`. -/
def c10Buf2 : HostBuf :=
  ⟨some ⟨[(1, 0, .stream 0 (some PDFMETA_TYPE_VAL)
      (some (.obj [("v", .str "1.0.0"), ("nid", .int 1), ("cr", .int 0),
        ("meta", .arr [mkRecord 0 "" "a" .null])])))],
    some (.ref 1 0 0), some (.arrObj 0 [.ref 1 0 1])⟩⟩

/-- The state after running `c10Ops` on a store loaded from the empty
buffer. -/
def c10Final : PDFMeta :=
  { metadata := .obj [("v", .str "1.0.0"), ("nid", .int 2), ("cr", .int 0),
      ("meta", .arr [mkRecord 0 "" "a" .null, mkRecord 1 "" "b" .null])]
    changed_meta := true
    has_meta := false
    pdf_data := c10Buf2 }

/-! ## Lemmas: dict reads and writes -/

theorem getField?_setField_self (fs : List (String × JsonVal)) (k : String) (v : JsonVal) :
    getField? (setField fs k v) k = some v := by
  induction fs with
  | nil => simp [setField, getField?]
  | cons hd tl ih =>
    obtain ⟨k1, v1⟩ := hd
    by_cases h : k1 = k <;> simp [setField, getField?, h, ih]

theorem getField?_setField_ne (fs : List (String × JsonVal)) (k k' : String) (v : JsonVal)
    (h : k' ≠ k) : getField? (setField fs k v) k' = getField? fs k' := by
  induction fs with
  | nil => simp [setField, getField?, h, Ne.symm h]
  | cons hd tl ih =>
    obtain ⟨k1, v1⟩ := hd
    by_cases h1 : k1 = k
    · subst h1
      simp [setField, getField?, h, Ne.symm h]
    · simp [setField, getField?, h1, ih]

theorem isDict_of_dictGet?_some {m : JsonVal} {k : String} {v : JsonVal}
    (h : dictGet? m k = some v) : m.isDict = true := by
  cases m <;> simp_all [dictGet?, JsonVal.isDict]

theorem isDict_setv (m : JsonVal) (k : String) (v : JsonVal) :
    (setv m k v).isDict = m.isDict := by
  cases m <;> simp [setv, JsonVal.isDict]

theorem dictGet?_setv_self {m : JsonVal} (hm : m.isDict = true) (k : String) (v : JsonVal) :
    dictGet? (setv m k v) k = some v := by
  cases m <;> simp_all [setv, dictGet?, JsonVal.isDict, getField?_setField_self]

theorem dictGet?_setv_ne (m : JsonVal) (k k' : String) (v : JsonVal) (h : k' ≠ k) :
    dictGet? (setv m k v) k' = dictGet? m k' := by
  cases m <;> simp [setv, dictGet?, getField?_setField_ne _ _ _ _ h]

theorem dictGetE_eq_ok {m : JsonVal} {k : String} {v : JsonVal}
    (h : dictGet? m k = some v) : dictGetE m k = .ok v := by
  cases m <;> simp_all [dictGet?, dictGetE]

theorem hasKey_of_dictGet?_some {m : JsonVal} {k : String} {v : JsonVal}
    (h : dictGet? m k = some v) : hasKey m k = true := by
  simp [hasKey, h]

theorem validMinimal_of_gets {m : JsonVal} {v w : JsonVal}
    (h1 : dictGet? m "meta" = some v) (h2 : dictGet? m "nid" = some w) :
    validMinimal m = true := by
  simp [validMinimal, isDict_of_dictGet?_some h1,
    hasKey_of_dictGet?_some h1, hasKey_of_dictGet?_some h2]

/-! ## Lemmas: `mark_dirty` -/

theorem mark_dirty_changed {s : PDFMeta} (h : s.changed_meta = true) :
    mark_dirty s = .ok s := by
  simp [mark_dirty, h]

theorem mark_dirty_no_meta {s : PDFMeta} (h : s.has_meta = false) :
    mark_dirty s = .ok { s with changed_meta := true } := by
  cases s with
  | mk md ch hm pd =>
    cases ch <;> simp_all [mark_dirty]

theorem mark_dirty_bump {s : PDFMeta} {vstr : String} {k : Int}
    (h1 : s.changed_meta = false) (h2 : s.has_meta = true)
    (h3 : dictGet? s.metadata "v" = some (.str vstr))
    (h4 : 1 < (splitDot vstr).length)
    (h5 : pyParseInt (((splitDot vstr).getLast?).getD "") = some k) :
    mark_dirty s = .ok { s with
      metadata := setv s.metadata "v"
        (.str (joinDot ((splitDot vstr).dropLast ++ [pyStr (k + 1)]))),
      changed_meta := true } := by
  simp [mark_dirty, h1, h2, dictGetE_eq_ok h3, h4, h5]

theorem mark_dirty_ok_inv {s s' : PDFMeta} (h : mark_dirty s = .ok s') :
    (s'.metadata = s.metadata ∨ ∃ w, s'.metadata = setv s.metadata "v" (.str w)) ∧
    s'.has_meta = s.has_meta ∧ s'.pdf_data = s.pdf_data ∧
    s'.changed_meta = true := by
  unfold mark_dirty at h
  split at h
  · cases h
    refine ⟨Or.inl rfl, rfl, rfl, by assumption⟩
  · split at h
    · split at h
      · cases h
      · split at h
        · split at h
          · cases h
          · cases h
            exact ⟨Or.inr ⟨_, rfl⟩, rfl, rfl, rfl⟩
        · cases h
      · cases h
    · cases h
      exact ⟨Or.inl rfl, rfl, rfl, rfl⟩

/-! ## Lemmas: `meta_add` -/

theorem meta_add_eq_of_mark {s s1 : PDFMeta} {n : Int} {l : List JsonVal}
    {name ns : String} {obj : JsonVal}
    (hn : dictGet? s.metadata "nid" = some (.int n))
    (hm : dictGet? s.metadata "meta" = some (.arr l))
    (hmark : mark_dirty { s with
        metadata := setv (setv s.metadata "nid" (.int (n + 1))) "meta"
          (.arr (l ++ [mkRecord n ns name obj])) } = .ok s1) :
    meta_add s name obj ns = .ok (s1, mkRecord n ns name obj) := by
  have hm1 : dictGet? (setv s.metadata "nid" (.int (n + 1))) "meta" = some (.arr l) := by
    rw [dictGet?_setv_ne _ _ _ _ (by decide)]
    exact hm
  unfold meta_add get_new_id
  rw [dictGetE_eq_ok hn]
  simp only [pyAsInt]
  rw [dictGetE_eq_ok hm1]
  simp only [hmark]

theorem meta_add_fresh {s : PDFMeta} {n : Int} {l : List JsonVal}
    (hfm : s.has_meta = false)
    (hn : dictGet? s.metadata "nid" = some (.int n))
    (hm : dictGet? s.metadata "meta" = some (.arr l))
    (name ns : String) (obj : JsonVal) :
    meta_add s name obj ns = .ok
      ({ s with
          metadata := setv (setv s.metadata "nid" (.int (n + 1))) "meta"
            (.arr (l ++ [mkRecord n ns name obj])),
          changed_meta := true }, mkRecord n ns name obj) :=
  meta_add_eq_of_mark hn hm (mark_dirty_no_meta hfm)

theorem meta_add_dirty {s : PDFMeta} {n : Int} {l : List JsonVal}
    (hch : s.changed_meta = true)
    (hn : dictGet? s.metadata "nid" = some (.int n))
    (hm : dictGet? s.metadata "meta" = some (.arr l))
    (name ns : String) (obj : JsonVal) :
    meta_add s name obj ns = .ok
      ({ s with
          metadata := setv (setv s.metadata "nid" (.int (n + 1))) "meta"
            (.arr (l ++ [mkRecord n ns name obj])) }, mkRecord n ns name obj) :=
  meta_add_eq_of_mark hn hm (mark_dirty_changed hch)

theorem meta_add_bump {s : PDFMeta} {n k : Int} {l : List JsonVal} {vstr : String}
    (hch : s.changed_meta = false) (hhm : s.has_meta = true)
    (hn : dictGet? s.metadata "nid" = some (.int n))
    (hm : dictGet? s.metadata "meta" = some (.arr l))
    (hv : dictGet? s.metadata "v" = some (.str vstr))
    (h4 : 1 < (splitDot vstr).length)
    (h5 : pyParseInt (((splitDot vstr).getLast?).getD "") = some k)
    (name ns : String) (obj : JsonVal) :
    meta_add s name obj ns = .ok
      ({ s with
          metadata := setv
            (setv (setv s.metadata "nid" (.int (n + 1))) "meta"
              (.arr (l ++ [mkRecord n ns name obj]))) "v"
            (.str (joinDot ((splitDot vstr).dropLast ++ [pyStr (k + 1)]))),
          changed_meta := true }, mkRecord n ns name obj) := by
  apply meta_add_eq_of_mark hn hm
  refine mark_dirty_bump ?_ ?_ ?_ h4 h5
  · exact hch
  · exact hhm
  · rw [dictGet?_setv_ne _ _ _ _ (by decide), dictGet?_setv_ne _ _ _ _ (by decide)]
    exact hv

theorem meta_add_ok_inv {s s1 : PDFMeta} {name ns : String} {obj r : JsonVal}
    (h : meta_add s name obj ns = .ok (s1, r)) :
    s.metadata.isDict = true ∧
    ∃ (w : JsonVal) (l2 : List JsonVal),
      mark_dirty { s with
        metadata := setv (setv s.metadata "nid" w) "meta" (.arr l2) } = .ok s1 := by
  have hdict : s.metadata.isDict = true := by
    rcases hq0 : dictGetE s.metadata "nid" with e | nv
    · unfold meta_add get_new_id at h
      simp [hq0] at h
    · cases hm0 : s.metadata <;> simp_all [dictGetE, JsonVal.isDict]
  refine ⟨hdict, ?_⟩
  unfold meta_add get_new_id at h
  cases hq : dictGetE s.metadata "nid" with
  | error e => simp [hq] at h
  | ok nv =>
    simp only [hq] at h
    cases hnv : pyAsInt nv with
    | none => simp [hnv] at h
    | some n =>
      simp only [hnv] at h
      cases hm2 : dictGetE (setv s.metadata "nid" (.int (n + 1))) "meta" with
      | error e => simp [hm2] at h
      | ok cv =>
        simp only [hm2] at h
        cases cv with
        | arr l =>
          cases hmk : mark_dirty { s with
              metadata := setv (setv s.metadata "nid" (.int (n + 1))) "meta"
                (.arr (l ++ [mkRecord n ns name obj])) } with
          | error e => simp [hmk] at h
          | ok s2 =>
            simp only [hmk] at h
            obtain ⟨h1, _⟩ := Prod.mk.injEq .. ▸ Except.ok.inj h
            exact ⟨_, _, h1 ▸ hmk⟩
        | null => simp at h
        | bool b => simp at h
        | int m => simp at h
        | str t => simp at h
        | obj fs => simp at h

/-! ## Lemmas: `meta_remove_id` -/

theorem meta_remove_id_ok_inv {s s1 : PDFMeta} {uid : Int} {ns : Option String}
    {fuel : Nat} {b : Bool}
    (h : meta_remove_id s uid ns fuel = .ok (some (s1, b))) :
    s1 = s ∨ ∃ l2, mark_dirty { s with
      metadata := setv s.metadata "meta" (.arr l2) } = .ok s1 := by
  unfold meta_remove_id at h
  split at h
  · cases h
  · split at h
    · cases h
    · split at h
      · cases h
      · rename_i heq
        cases h
        exact Or.inr ⟨_, heq⟩
    · cases h
      exact Or.inl rfl
  · cases h

/-! ## Lemmas: flush -/

theorem write_metadata_ok_inv {s s2 : PDFMeta} (h : write_metadata s = .ok s2) :
    s2.metadata = s.metadata ∧ s2.changed_meta = false ∧ s2.has_meta = s.has_meta := by
  unfold write_metadata at h
  split at h
  · cases h
  · cases h
    exact ⟨rfl, rfl, rfl⟩

theorem get_pdf_ok_inv {s s1 : PDFMeta} {out : HostBuf}
    (h : get_pdf s = .ok (s1, out)) :
    s1 = s ∨ write_metadata s = .ok s1 := by
  unfold get_pdf at h
  split at h
  · split at h
    · rename_i heq
      cases h
      exact Or.inr heq
    · cases h
  · cases h
    exact Or.inl rfl

theorem get_pdf_of_write {s s1 : PDFMeta} (hch : s.changed_meta = true)
    (hw : write_metadata s = .ok s1) :
    get_pdf s = .ok (s1, s1.pdf_data) := by
  simp [get_pdf, hch, hw]

/-! ## Lemmas: load path -/

theorem adoptPayload_ok_inv {target : HostVal} {r : JsonVal × Bool}
    (h : adoptPayload target = .ok r) :
    r = (create_clean_meta 1, false) ∨ (∃ m, r = (m, true) ∧ validMinimal m = true) := by
  unfold adoptPayload at h
  split at h
  · cases h
  · split at h
    · cases h
      exact Or.inr ⟨_, rfl, by assumption⟩
    · cases h
      exact Or.inl rfl

theorem readTarget_ok_inv {root : HostRoot} {tv : HostVal} {r : JsonVal × Bool}
    (h : readTarget root tv = .ok r) :
    r = (create_clean_meta 1, false) ∨ (∃ m, r = (m, true) ∧ validMinimal m = true) := by
  unfold readTarget at h
  split at h
  · split at h
    · cases h
      exact Or.inl rfl
    · exact adoptPayload_ok_inv h
  · exact adoptPayload_ok_inv h

theorem tryReadMetadata_ok_inv {buf : HostBuf} {r : JsonVal × Bool}
    (h : tryReadMetadata buf = .ok r) :
    r = (create_clean_meta 1, false) ∨ r = (create_clean_meta 0, false) ∨
      (∃ m, r = (m, true) ∧ validMinimal m = true) := by
  unfold tryReadMetadata at h
  split at h
  · cases h
  · split at h
    · rcases readTarget_ok_inv h with h1 | h1
      · exact Or.inl h1
      · exact Or.inr (Or.inr h1)
    · split at h
      · rcases readTarget_ok_inv h with h1 | h1
        · exact Or.inl h1
        · exact Or.inr (Or.inr h1)
      · cases h
        exact Or.inr (Or.inl rfl)

theorem read_metadata_cases (buf : HostBuf) :
    read_metadata buf = (create_clean_meta 1, false) ∨
    read_metadata buf = (create_clean_meta 0, false) ∨
      (∃ m, read_metadata buf = (m, true) ∧ validMinimal m = true) := by
  unfold read_metadata
  cases h : tryReadMetadata buf with
  | error e => exact Or.inl rfl
  | ok r =>
    rcases tryReadMetadata_ok_inv h with h1 | h1 | h1
    · exact Or.inl h1
    · exact Or.inr (Or.inl h1)
    · exact Or.inr (Or.inr h1)

theorem initStore_eq_of_tryRead {buf : HostBuf} {r : JsonVal × Bool}
    (h : tryReadMetadata buf = .ok r) :
    initStore buf =
      { metadata := r.1, changed_meta := false, has_meta := r.2, pdf_data := buf } := by
  simp [initStore, read_metadata, h]

/-! ## Lemmas: flush then reload -/

theorem fst_le_maxIdnum {arena : List (Nat × Nat × HostVal)} {e : Nat × Nat × HostVal}
    (he : e ∈ arena) : e.1 ≤ maxIdnum arena := by
  induction arena with
  | nil => cases he
  | cons hd tl ih =>
    rcases List.mem_cons.mp he with rfl | he1
    · exact le_max_left _ _
    · exact le_trans (ih he1) (le_max_right _ _)

theorem lookupArena_append_of_notin (arena : List (Nat × Nat × HostVal)) (n : Nat)
    (v : HostVal) (hn : ∀ e ∈ arena, e.1 ≠ n) :
    lookupArena (arena ++ [(n, 0, v)]) n 0 = some v := by
  induction arena with
  | nil => simp [lookupArena]
  | cons hd tl ih =>
    obtain ⟨i, g, w⟩ := hd
    have hi : i ≠ n := by
      have := hn (i, g, w) (by simp)
      simpa using this
    simp only [List.cons_append, lookupArena, hi, false_and, if_false]
    exact ih (fun e he => hn e (List.mem_cons_of_mem _ he))

theorem write_reload {s s2 : PDFMeta} (h : write_metadata s = .ok s2)
    (hv : validMinimal s.metadata = true) :
    read_metadata s2.pdf_data = (s.metadata, true) := by
  unfold write_metadata at h
  split at h
  · cases h
  · rename_i root hroot
    cases h
    have hfresh : ∀ e ∈ root.arena, e.1 ≠ freshIdnum root.arena := by
      intro e he
      have := fst_le_maxIdnum he
      simp only [freshIdnum]
      omega
    have hla := lookupArena_append_of_notin root.arena (freshIdnum root.arena)
      (.stream 0 (some PDFMETA_TYPE_VAL) (some s.metadata)) hfresh
    simp [read_metadata, tryReadMetadata, readTarget, deref, hla, getTypeVal,
      adoptPayload, streamPayload, hv]

/-! ## Claims -/

/-- **C1.** The claim states that `remove_by_id` (`meta_remove_id`)
terminates for every Document and id, returning `false` and leaving the
records unchanged when nothing matches.  The code's `while` loop never
increments `i` (unlike `meta_remove_name`), so when the record at index 0
does not match, the loop re-inspects the same record forever: on a store
holding one record with id 0, `meta_remove_id … 1` is still running after
every finite number of iterations.  The loop only returns when the record
list is empty or its head matches (second conjunct: a matching head is
removed with `true`). -/
theorem C1_remove_by_id_diverges :
    (∀ fuel : Nat, meta_remove_id oneRecStore 1 none fuel = .ok none) ∧
    meta_remove_id oneRecStore 0 none 1 =
      .ok (some ({ oneRecStore with
        metadata := setv oneRecStore.metadata "meta" (.arr []),
        changed_meta := true }, true)) := by
  constructor
  · intro fuel
    induction fuel with
    | zero => rfl
    | succ n ih => exact ih
  · rfl

/-- **C2.** The spec claims that on a loaded Document whose version string
has no `"."` separator, the first clean-to-dirty transition appends a
literal `".0"` (e.g. `"weird" → "weird.0"`) and does not raise.  In the
code the fallback branch computes `version + ".0"` where `version` is the
*list* returned by `.split(".")`, so `list + str` raises `TypeError`: the
transition, and hence any first mutation such as `meta_add`, raises instead
of producing `"weird.0"`.  The code's own comment states the appending
intent, so the code, not the claim, is wrong. -/
theorem C2_no_separator_fallback_raises :
    mark_dirty weirdStore = .error .typeError ∧
    meta_add weirdStore "a" .null "" = .error .typeError := by
  exact ⟨rfl, rfl⟩

/-- **C3.** Load never raises: `read_metadata` is a total function of the
buffer, every internal failure (`tryReadMetadata` returning an error) is
converted to a fresh corrupt Document (`nid = 0`, empty records,
`cr = 1`), every outcome is fresh-corrupt, fresh-clean or a validated
adoption, and the legitimate absence of both the `Latest` pointer and a
usable `History` yields the fresh *clean* Document (`cr = 0`). -/
theorem C3_load_never_raises (buf : HostBuf) (root : HostRoot) :
    (read_metadata buf = (create_clean_meta 1, false) ∨
     read_metadata buf = (create_clean_meta 0, false) ∨
      (∃ m, read_metadata buf = (m, true) ∧ validMinimal m = true)) ∧
    ((∃ e, tryReadMetadata buf = .error e) →
      read_metadata buf = (create_clean_meta 1, false)) ∧
    (buf.parsed = some root → root.latest = none → histFallback root = none →
      read_metadata buf = (create_clean_meta 0, false)) ∧
    dictGet? (create_clean_meta 1) "nid" = some (.int 0) ∧
    dictGet? (create_clean_meta 1) "meta" = some (.arr []) ∧
    dictGet? (create_clean_meta 1) "cr" = some (.int 1) ∧
    dictGet? (create_clean_meta 0) "cr" = some (.int 0) := by
  refine ⟨read_metadata_cases buf, ?_, ?_, rfl, rfl, rfl, rfl⟩
  · rintro ⟨e, he⟩
    simp [read_metadata, he]
  · intro h1 h2 h3
    simp [read_metadata, tryReadMetadata, h1, h2, h3]

/-- Witness for C3: the empty well-formed buffer loads fresh clean, the
unparseable buffer loads fresh corrupt. -/
theorem C3_load_witness :
    read_metadata emptyBuf = (create_clean_meta 0, false) ∧
    read_metadata badBuf = (create_clean_meta 1, false) := by
  constructor
  · exact (C3_load_never_raises emptyBuf ⟨[], none, none⟩).2.2.1 rfl rfl rfl
  · exact (C3_load_never_raises badBuf ⟨[], none, none⟩).2.1 ⟨.pdfError, rfl⟩

/-- **C4 counterexample.** The payload `{"meta": 3, "nid": "x"}` — `meta`
not an array, `nid` not an integer — is *adopted*, not rejected: the loaded
store keeps `_has_meta = true`, its metadata is the payload itself, and it
lacks the `cr` field a fresh corrupt Document would carry.  The claim's
required fresh-corrupt outcome does not happen. -/
theorem C4_type_validation_counterexample :
    (initStore badTypesBuf).metadata = badTypesPayload ∧
    (initStore badTypesBuf).has_meta = true ∧
    dictGet? (initStore badTypesBuf).metadata "cr" = none := by
  exact ⟨rfl, rfl, rfl⟩

/-- **C4 (amended).** The load validation is only `isinstance(meta, dict)
and "meta" in meta and "nid" in meta`: a candidate whose payload parses to
`m` (ownership check passed: tag absent or equal to the marker) is rejected
as fresh-corrupt exactly when `m` is not a dict or lacks one of the two
keys; when both keys are merely *present* the value is adopted verbatim,
with no check that `meta` is an array or `nid` an integer. -/
theorem C4_minimal_validation (buf : HostBuf) (root : HostRoot) (tv : HostVal)
    (tok : Nat) (tag : Option String) (m : JsonVal)
    (hp : buf.parsed = some root) (hl : root.latest = some tv)
    (hd : deref root tv = .stream tok tag (some m))
    (htag : tag = none ∨ tag = some PDFMETA_TYPE_VAL) :
    (validMinimal m = false →
      initStore buf = { metadata := create_clean_meta 1, changed_meta := false,
                        has_meta := false, pdf_data := buf }) ∧
    (validMinimal m = true →
      initStore buf = { metadata := m, changed_meta := false,
                        has_meta := true, pdf_data := buf }) := by
  constructor
  · intro hvm
    have htr : tryReadMetadata buf = .ok (create_clean_meta 1, false) := by
      unfold tryReadMetadata readTarget adoptPayload
      rcases htag with rfl | rfl <;>
        simp [hp, hl, hd, getTypeVal, streamPayload, hvm]
    exact initStore_eq_of_tryRead htr
  · intro hvm
    have htr : tryReadMetadata buf = .ok (m, true) := by
      unfold tryReadMetadata readTarget adoptPayload
      rcases htag with rfl | rfl <;>
        simp [hp, hl, hd, getTypeVal, streamPayload, hvm]
    exact initStore_eq_of_tryRead htr

/-- Witness for the amended C4, at the concrete type-mismatched payload:
both keys are present, so the payload is adopted verbatim. -/
theorem C4_minimal_validation_witness :
    initStore badTypesBuf = { metadata := badTypesPayload,
                              changed_meta := false,
                              has_meta := true, pdf_data := badTypesBuf } :=
  (C4_minimal_validation badTypesBuf
    ⟨[(1, 0, .stream 0 (some PDFMETA_TYPE_VAL) (some badTypesPayload))],
      some (.ref 1 0 0), none⟩
    (.ref 1 0 0) 0 (some PDFMETA_TYPE_VAL) badTypesPayload
    rfl rfl rfl (Or.inr rfl)).2 rfl

/-- **C6.** In `sharedSnapshotBuf` the `Latest` pointer and `History[0]`
are two distinct parsed reference instances (identity tokens 100 and 101)
to the *same* snapshot object `(5, 0)` — dereferencing either yields the
same stream.  The claim says such a snapshot is counted once; because the
dedup key of `_push` always includes `id(obj)`, the two references never
collide and `meta_dump_all` counts the snapshot **twice**
(`candidates = 2`, both parsed).  The code's own comment ("keep the
indirect ref identity if possible, otherwise use python id") describes the
intended fallback the code fails to implement, so this is a code bug. -/
theorem C6_dump_counts_shared_snapshot_twice :
    (∃ root, sharedSnapshotBuf.parsed = some root ∧
      root.latest = some (.ref 5 0 100) ∧
      root.history = some (.arrObj 7 [.ref 5 0 101]) ∧
      deref root (.ref 5 0 100) = deref root (.ref 5 0 101)) ∧
    (meta_dump_all sharedSnapshotBuf).2.candidates = 2 ∧
    (meta_dump_all sharedSnapshotBuf).2.parsed = 2 := by
  exact ⟨⟨_, rfl, rfl, rfl, rfl⟩, rfl, rfl⟩

/-- **C9.** A `Latest` pointer resolving to an object that carries the
private type key with a value different from the store's marker yields a
fresh Document with `corrupt = 1` and zero records, and no exception.
The hypotheses never constrain the object's payload, so the conclusion
holds uniformly in it — the payload bytes are never read. -/
theorem C9_foreign_tag_fresh_corrupt (buf : HostBuf) (root : HostRoot)
    (tv : HostVal) (t : String)
    (hp : buf.parsed = some root) (hl : root.latest = some tv)
    (ht : getTypeVal (deref root tv) = some t) (hne : t ≠ PDFMETA_TYPE_VAL) :
    initStore buf = { metadata := create_clean_meta 1, changed_meta := false,
                      has_meta := false, pdf_data := buf } ∧
    metaList (initStore buf) = [] ∧
    dictGet? (initStore buf).metadata "cr" = some (.int 1) := by
  have htr : tryReadMetadata buf = .ok (create_clean_meta 1, false) := by
    unfold tryReadMetadata readTarget
    simp [hp, hl, ht, hne]
  have hinit := initStore_eq_of_tryRead htr
  refine ⟨hinit, ?_, ?_⟩ <;> rw [hinit] <;> rfl

/-- Witness for C9, at the concrete buffer whose snapshot is tagged
`"/Other"`. -/
theorem C9_foreign_tag_witness :
    initStore foreignBuf = { metadata := create_clean_meta 1,
                             changed_meta := false,
                             has_meta := false, pdf_data := foreignBuf } :=
  (C9_foreign_tag_fresh_corrupt foreignBuf
    ⟨[(5, 0, .stream 0 (some "/Other") (some (.obj [])))], some (.ref 5 0 0), none⟩
    (.ref 5 0 0) "/Other" rfl rfl rfl (by decide)).1

/-! ## Lemmas: sequential adds from a fresh store -/

theorem dictGet?_mkRecord_id (uid : Int) (ns name : String) (obj : JsonVal) :
    dictGet? (mkRecord uid ns name obj) "id" = some (.int uid) := rfl

theorem addSeq_fresh_shape (args : List (String × JsonVal × String)) :
    ∀ (s : PDFMeta) (k : Int) (l : List JsonVal),
      s.has_meta = false →
      dictGet? s.metadata "nid" = some (.int k) →
      dictGet? s.metadata "meta" = some (.arr l) →
      ∃ (s1 : PDFMeta) (l1 : List JsonVal),
        addSeq s args = .ok s1 ∧
        s1.has_meta = false ∧
        s1.pdf_data = s.pdf_data ∧
        dictGet? s1.metadata "nid" = some (.int (k + args.length)) ∧
        dictGet? s1.metadata "meta" = some (.arr (l ++ l1)) ∧
        recIds l1 = idRange k args.length := by
  induction args with
  | nil =>
    intro s k l h1 h2 h3
    exact ⟨s, [], rfl, h1, rfl, by simpa using h2, by simpa using h3, rfl⟩
  | cons a rest ih =>
    intro s k l h1 h2 h3
    obtain ⟨name, obj, ns⟩ := a
    have hadd := meta_add_fresh h1 h2 h3 name ns obj
    have hdict : s.metadata.isDict = true := isDict_of_dictGet?_some h2
    have h2' : dictGet? (setv (setv s.metadata "nid" (.int (k + 1))) "meta"
        (.arr (l ++ [mkRecord k ns name obj]))) "nid" = some (.int (k + 1)) := by
      rw [dictGet?_setv_ne _ _ _ _ (by decide)]
      exact dictGet?_setv_self hdict _ _
    have h3' : dictGet? (setv (setv s.metadata "nid" (.int (k + 1))) "meta"
        (.arr (l ++ [mkRecord k ns name obj]))) "meta" =
        some (.arr (l ++ [mkRecord k ns name obj])) := by
      refine dictGet?_setv_self ?_ _ _
      rw [isDict_setv]
      exact hdict
    obtain ⟨s1, l1, hseq, g1, g2, g3, g4, g5⟩ :=
      ih { s with
            metadata := setv (setv s.metadata "nid" (.int (k + 1))) "meta"
              (.arr (l ++ [mkRecord k ns name obj])),
            changed_meta := true }
        (k + 1) (l ++ [mkRecord k ns name obj]) h1 h2' h3'
    refine ⟨s1, mkRecord k ns name obj :: l1, ?_, g1, g2, ?_, ?_, ?_⟩
    · show addSeq s ((name, obj, ns) :: rest) = .ok s1
      unfold addSeq
      rw [hadd]
      exact hseq
    · rw [g3]
      congr 2
      push_cast [List.length_cons]
      ring
    · rw [g4]
      congr 2
      simp
    · show dictGet? (mkRecord k ns name obj) "id" :: recIds l1 =
        idRange k (rest.length + 1)
      simp only [idRange, dictGet?_mkRecord_id, g5]

theorem idRange_eq_range' (k n : Nat) :
    idRange (k : Int) n = (List.range' k n).map (fun j => some (.int (j : Int))) := by
  induction n generalizing k with
  | zero => simp [idRange]
  | succ n ih =>
    rw [List.range'_succ]
    have hk := ih (k + 1)
    push_cast at hk
    simp [idRange, hk]

/-- **C7.** On a fresh store (whose load created fresh metadata instead of
adopting a snapshot), N sequential `meta_add` calls succeed and assign the
ids `0, 1, …, N−1` in order (`List.range N`), the next-id counter ends at
N (it only ever increases, by one per add), and `meta_remove_id` never
changes the next-id counter — so an id is never reassigned after records
are removed. -/
theorem C7_sequential_ids (buf : HostBuf) (args : List (String × JsonVal × String))
    (hfresh : (initStore buf).has_meta = false) :
    (∃ (s1 : PDFMeta) (l1 : List JsonVal),
      addSeq (initStore buf) args = .ok s1 ∧
      metaList s1 = l1 ∧
      recIds l1 = (List.range args.length).map (fun j => some (.int (j : Int))) ∧
      dictGet? s1.metadata "nid" = some (.int (args.length : Int))) ∧
    (∀ (s s1 : PDFMeta) (uid : Int) (ns : Option String) (fuel : Nat) (b : Bool),
      meta_remove_id s uid ns fuel = .ok (some (s1, b)) →
      dictGet? s1.metadata "nid" = dictGet? s.metadata "nid") := by
  constructor
  · have hmeta : dictGet? (initStore buf).metadata "nid" = some (.int 0) ∧
        dictGet? (initStore buf).metadata "meta" = some (.arr []) := by
      rcases read_metadata_cases buf with h | h | ⟨m, h, _⟩
      · constructor <;> simp [initStore, h, create_clean_meta, dictGet?, getField?]
      · constructor <;> simp [initStore, h, create_clean_meta, dictGet?, getField?]
      · simp [initStore, h] at hfresh
    obtain ⟨s1, l1, hseq, _, _, g3, g4, g5⟩ :=
      addSeq_fresh_shape args (initStore buf) 0 [] hfresh hmeta.1 hmeta.2
    refine ⟨s1, l1, hseq, ?_, ?_, ?_⟩
    · simp [metaList, g4]
    · rw [g5, show (0 : Int) = ((0 : Nat) : Int) from rfl, idRange_eq_range',
        ← List.range_eq_range']
    · simpa using g3
  · intro s s1 uid ns fuel b h
    rcases meta_remove_id_ok_inv h with rfl | ⟨l2, hmk⟩
    · rfl
    · rcases mark_dirty_ok_inv hmk with ⟨hmd, _, _⟩
      rcases hmd with hmd | ⟨w, hmd⟩
      · rw [hmd]
        exact dictGet?_setv_ne _ _ _ _ (by decide)
      · rw [hmd]
        rw [dictGet?_setv_ne _ _ _ _ (by decide), dictGet?_setv_ne _ _ _ _ (by decide)]

/-- Witness for C7: two adds on the empty fresh store yield ids 0 and 1 and
next-id 2; removing the only record of `oneRecStore` leaves the next-id
counter untouched. -/
theorem C7_sequential_ids_witness :
    (∃ (s1 : PDFMeta) (l1 : List JsonVal),
      addSeq (initStore emptyBuf) [("a", .null, ""), ("b", .null, "")] = .ok s1 ∧
      metaList s1 = l1 ∧
      recIds l1 = (List.range 2).map (fun j => some (.int (j : Int))) ∧
      dictGet? s1.metadata "nid" = some (.int (2 : Int))) ∧
    dictGet? removedStore.metadata "nid" = dictGet? oneRecStore.metadata "nid" := by
  have h := C7_sequential_ids emptyBuf [("a", .null, ""), ("b", .null, "")] rfl
  exact ⟨h.1, h.2 oneRecStore removedStore 0 none 5 true rfl⟩

/-! ## Lemmas: the round trip -/

theorem validMinimal_setv_v {m : JsonVal} (h : validMinimal m = true) (x : JsonVal) :
    validMinimal (setv m "v" x) = true := by
  simp only [validMinimal, Bool.and_eq_true, hasKey] at h ⊢
  obtain ⟨⟨hd, hm⟩, hn⟩ := h
  refine ⟨⟨by rwa [isDict_setv], ?_⟩, ?_⟩ <;>
    rw [dictGet?_setv_ne _ _ _ _ (by decide)] <;> assumption

theorem meta_add_validMinimal {s s1 : PDFMeta} {name ns : String} {obj r : JsonVal}
    (h : meta_add s name obj ns = .ok (s1, r)) :
    validMinimal s1.metadata = true ∧ s1.changed_meta = true := by
  obtain ⟨hdict, w, l2, hmk⟩ := meta_add_ok_inv h
  have hvm2 : validMinimal (setv (setv s.metadata "nid" w) "meta" (.arr l2)) = true := by
    have hd2 : (setv (setv s.metadata "nid" w) "meta" (.arr l2)).isDict = true := by
      rw [isDict_setv, isDict_setv]
      exact hdict
    have hget_meta : dictGet? (setv (setv s.metadata "nid" w) "meta" (.arr l2)) "meta" =
        some (.arr l2) := by
      refine dictGet?_setv_self ?_ _ _
      rw [isDict_setv]
      exact hdict
    have hget_nid : dictGet? (setv (setv s.metadata "nid" w) "meta" (.arr l2)) "nid" =
        some w := by
      rw [dictGet?_setv_ne _ _ _ _ (by decide)]
      exact dictGet?_setv_self hdict _ _
    exact validMinimal_of_gets hget_meta hget_nid
  obtain ⟨hmd, _, _, hch⟩ := mark_dirty_ok_inv hmk
  refine ⟨?_, hch⟩
  rcases hmd with hmd | ⟨w2, hmd⟩
  · rw [hmd]
    exact hvm2
  · rw [hmd]
    exact validMinimal_setv_v hvm2 _

theorem get_pdf_dirty_inv {s s2 : PDFMeta} {out : HostBuf}
    (hch : s.changed_meta = true) (h : get_pdf s = .ok (s2, out)) :
    write_metadata s = .ok s2 ∧ out = s2.pdf_data := by
  unfold get_pdf at h
  rw [hch] at h
  simp only [if_true] at h
  cases hw : write_metadata s with
  | error e => rw [hw] at h; cases h
  | ok s3 =>
    rw [hw] at h
    cases h
    exact ⟨rfl, rfl⟩

theorem write_metadata_of_parsed {s : PDFMeta} {root : HostRoot}
    (hp : s.pdf_data.parsed = some root) :
    ∃ s2, write_metadata s = .ok s2 ∧ s2.metadata = s.metadata ∧
      s2.changed_meta = false ∧ s2.has_meta = s.has_meta ∧
      s2.pdf_data.parsed.isSome = true := by
  unfold write_metadata
  rw [hp]
  exact ⟨_, rfl, rfl, rfl, rfl, rfl⟩

/-- **C8.** Round trip: on any store, adding one record and flushing, then
constructing a new store from the flushed output buffer, loads a Document
that adopts the flushed metadata verbatim — the record set (ids,
namespaces, names, contents) of the reloaded store is identical to the
flushed one. -/
theorem C8_round_trip (buf : HostBuf) (name ns : String) (obj : JsonVal)
    (s1 : PDFMeta) (r : JsonVal) (s2 : PDFMeta) (out : HostBuf)
    (hadd : meta_add (initStore buf) name obj ns = .ok (s1, r))
    (hflush : get_pdf s1 = .ok (s2, out)) :
    (initStore out).metadata = s2.metadata ∧
    metaList (initStore out) = metaList s2 ∧
    (initStore out).has_meta = true := by
  obtain ⟨hvm, hch⟩ := meta_add_validMinimal hadd
  obtain ⟨hw, rfl⟩ := get_pdf_dirty_inv hch hflush
  obtain ⟨hmd2, _, _⟩ := write_metadata_ok_inv hw
  have hrd : read_metadata s2.pdf_data = (s1.metadata, true) := write_reload hw hvm
  have hinit : initStore s2.pdf_data =
      { metadata := s1.metadata, changed_meta := false, has_meta := true,
        pdf_data := s2.pdf_data } := by
    simp [initStore, hrd]
  refine ⟨?_, ?_, ?_⟩
  · rw [hinit, hmd2]
  · rw [hinit]
    simp [metaList, hmd2]
  · rw [hinit]

/-- Witness for C8: the concrete add-flush-reload run from the empty
buffer. -/
theorem C8_round_trip_witness :
    (initStore rtOut).metadata = rtStore2.metadata ∧
    metaList (initStore rtOut) = metaList rtStore2 ∧
    (initStore rtOut).has_meta = true :=
  C8_round_trip emptyBuf "sig" "" (.obj [("x", .int 1)]) rtStore1
    (mkRecord 0 "" "sig" (.obj [("x", .int 1)])) rtStore2 rtOut rfl rfl

/-! ## Lemmas: fresh stores never bump the version -/

theorem runOp_fresh_invariant {s s1 : PDFMeta} {op : StoreOp}
    (hfm : s.has_meta = false) (h : runOp s op = .ok (some s1)) :
    s1.has_meta = false ∧ dictGet? s1.metadata "v" = dictGet? s.metadata "v" := by
  cases op with
  | add name obj ns =>
    simp only [runOp] at h
    cases hq : meta_add s name obj ns with
    | error e => rw [hq] at h; cases h
    | ok p =>
      obtain ⟨s2, r⟩ := p
      rw [hq] at h
      cases h
      obtain ⟨hdict, w, l2, hmk⟩ := meta_add_ok_inv hq
      have hmm : mark_dirty { s with
          metadata := setv (setv s.metadata "nid" w) "meta" (.arr l2) } =
          .ok { s with
            metadata := setv (setv s.metadata "nid" w) "meta" (.arr l2),
            changed_meta := true } := mark_dirty_no_meta hfm
      rw [hmm] at hmk
      cases hmk
      refine ⟨hfm, ?_⟩
      rw [dictGet?_setv_ne _ _ _ _ (by decide), dictGet?_setv_ne _ _ _ _ (by decide)]
  | removeId uid ns fuel =>
    simp only [runOp] at h
    cases hq : meta_remove_id s uid ns fuel with
    | error e => rw [hq] at h; cases h
    | ok p =>
      rw [hq] at h
      cases p with
      | none => cases h
      | some q =>
        obtain ⟨s2, b⟩ := q
        cases h
        rcases meta_remove_id_ok_inv hq with rfl | ⟨l2, hmk⟩
        · exact ⟨hfm, rfl⟩
        · have hmm : mark_dirty { s with
              metadata := setv s.metadata "meta" (.arr l2) } =
              .ok { s with
                metadata := setv s.metadata "meta" (.arr l2),
                changed_meta := true } := mark_dirty_no_meta hfm
          rw [hmm] at hmk
          cases hmk
          refine ⟨hfm, ?_⟩
          rw [dictGet?_setv_ne _ _ _ _ (by decide)]
  | flush =>
    simp only [runOp] at h
    cases hq : get_pdf s with
    | error e => rw [hq] at h; cases h
    | ok p =>
      obtain ⟨s2, out⟩ := p
      rw [hq] at h
      cases h
      rcases get_pdf_ok_inv hq with rfl | hw
      · exact ⟨hfm, rfl⟩
      · obtain ⟨hmd, _, hhm⟩ := write_metadata_ok_inv hw
        exact ⟨hhm.trans hfm, by rw [hmd]⟩

theorem runOps_fresh_invariant (ops : List StoreOp) :
    ∀ {s s1 : PDFMeta}, s.has_meta = false →
      runOps s ops = .ok (some s1) →
      s1.has_meta = false ∧ dictGet? s1.metadata "v" = dictGet? s.metadata "v" := by
  induction ops with
  | nil =>
    intro s s1 hfm h
    cases h
    exact ⟨hfm, rfl⟩
  | cons op rest ih =>
    intro s s1 hfm h
    simp only [runOps] at h
    cases hq : runOp s op with
    | error e => rw [hq] at h; cases h
    | ok p =>
      rw [hq] at h
      cases p with
      | none => cases h
      | some s2 =>
        obtain ⟨g1, g2⟩ := runOp_fresh_invariant hfm hq
        obtain ⟨g3, g4⟩ := ih g1 h
        exact ⟨g3, g4.trans g2⟩

/-- **C10.** A Document created fresh by this store instance
(`_has_meta = false` after load) never has its version bumped for the whole
lifetime of the instance: any sequence of add / remove / flush operations —
including flushes separating several dirty episodes — leaves `_has_meta`
false (flushing never restores it) and the version at its initialized value
`"1.0.0"`. -/
theorem C10_fresh_never_bumps (buf : HostBuf) (ops : List StoreOp) (s1 : PDFMeta)
    (hfresh : (initStore buf).has_meta = false)
    (hrun : runOps (initStore buf) ops = .ok (some s1)) :
    s1.has_meta = false ∧ dictGet? s1.metadata "v" = some (.str "1.0.0") := by
  have hv0 : dictGet? (initStore buf).metadata "v" = some (.str "1.0.0") := by
    rcases read_metadata_cases buf with h | h | ⟨m, h, _⟩
    · simp only [initStore, h]
      rfl
    · simp only [initStore, h]
      rfl
    · simp [initStore, h] at hfresh
  obtain ⟨h1, h2⟩ := runOps_fresh_invariant ops hfresh hrun
  exact ⟨h1, h2.trans hv0⟩

/-- Witness for C10: add, flush, add on the empty buffer ends with
`_has_meta` still false and version still `"1.0.0"`. -/
theorem C10_fresh_never_bumps_witness :
    c10Final.has_meta = false ∧
    dictGet? c10Final.metadata "v" = some (.str "1.0.0") :=
  C10_fresh_never_bumps emptyBuf c10Ops c10Final rfl rfl

/-! ## Lemmas: the version-bump discipline -/

theorem meta_add_bump_full {s : PDFMeta} {n k : Int} {l : List JsonVal} {vstr : String}
    (hch : s.changed_meta = false) (hhm : s.has_meta = true)
    (hn : dictGet? s.metadata "nid" = some (.int n))
    (hm : dictGet? s.metadata "meta" = some (.arr l))
    (hv : dictGet? s.metadata "v" = some (.str vstr))
    (h4 : 1 < (splitDot vstr).length)
    (h5 : pyParseInt (((splitDot vstr).getLast?).getD "") = some k)
    (name ns : String) (obj : JsonVal) :
    ∃ (s1 : PDFMeta) (r : JsonVal),
      meta_add s name obj ns = .ok (s1, r) ∧
      s1.changed_meta = true ∧ s1.has_meta = true ∧ s1.pdf_data = s.pdf_data ∧
      s1.metadata.isDict = true ∧
      dictGet? s1.metadata "v" =
        some (.str (joinDot ((splitDot vstr).dropLast ++ [pyStr (k + 1)]))) ∧
      dictGet? s1.metadata "nid" = some (.int (n + 1)) ∧
      dictGet? s1.metadata "meta" = some (.arr (l ++ [mkRecord n ns name obj])) := by
  have hD := isDict_of_dictGet?_some hn
  refine ⟨_, _, meta_add_bump hch hhm hn hm hv h4 h5 name ns obj,
    rfl, hhm, rfl, ?_, ?_, ?_, ?_⟩
  · show (setv (setv (setv s.metadata "nid" (.int (n + 1))) "meta"
        (.arr (l ++ [mkRecord n ns name obj]))) "v"
        (.str (joinDot ((splitDot vstr).dropLast ++ [pyStr (k + 1)])))).isDict = true
    rw [isDict_setv, isDict_setv, isDict_setv]
    exact hD
  · refine dictGet?_setv_self ?_ _ _
    rw [isDict_setv, isDict_setv]
    exact hD
  · rw [dictGet?_setv_ne _ _ _ _ (by decide), dictGet?_setv_ne _ _ _ _ (by decide)]
    exact dictGet?_setv_self hD _ _
  · rw [dictGet?_setv_ne _ _ _ _ (by decide)]
    refine dictGet?_setv_self ?_ _ _
    rw [isDict_setv]
    exact hD

theorem meta_add_dirty_full {s : PDFMeta} {n : Int} {l : List JsonVal}
    (hch : s.changed_meta = true)
    (hn : dictGet? s.metadata "nid" = some (.int n))
    (hm : dictGet? s.metadata "meta" = some (.arr l))
    (name ns : String) (obj : JsonVal) :
    ∃ (s1 : PDFMeta) (r : JsonVal),
      meta_add s name obj ns = .ok (s1, r) ∧
      s1.changed_meta = true ∧ s1.has_meta = s.has_meta ∧ s1.pdf_data = s.pdf_data ∧
      s1.metadata.isDict = true ∧
      dictGet? s1.metadata "v" = dictGet? s.metadata "v" ∧
      dictGet? s1.metadata "nid" = some (.int (n + 1)) ∧
      dictGet? s1.metadata "meta" = some (.arr (l ++ [mkRecord n ns name obj])) := by
  have hD := isDict_of_dictGet?_some hn
  refine ⟨_, _, meta_add_dirty hch hn hm name ns obj,
    hch, rfl, rfl, ?_, ?_, ?_, ?_⟩
  · show (setv (setv s.metadata "nid" (.int (n + 1))) "meta"
        (.arr (l ++ [mkRecord n ns name obj]))).isDict = true
    rw [isDict_setv, isDict_setv]
    exact hD
  · rw [dictGet?_setv_ne _ _ _ _ (by decide), dictGet?_setv_ne _ _ _ _ (by decide)]
  · rw [dictGet?_setv_ne _ _ _ _ (by decide)]
    exact dictGet?_setv_self hD _ _
  · refine dictGet?_setv_self ?_ _ _
    rw [isDict_setv]
    exact hD

/-- **C5.** On a loaded Document (`_has_meta = true`) at version `"1.0.0"`,
the trailing segment is bumped exactly once per dirty episode, on the first
clean-to-dirty transition: three successive `meta_add` mutations before a
single flush all leave the version at `"1.0.1"` (bumped by the first,
untouched by the next two), the flush clears the dirty flag without
touching the version, and the first mutation of the following episode bumps
it once more, to `"1.0.2"`. -/
theorem C5_version_bump_once_per_episode (s : PDFMeta) (root : HostRoot)
    (n : Int) (l : List JsonVal)
    (n1 n2 n3 n4 ns1 ns2 ns3 ns4 : String) (o1 o2 o3 o4 : JsonVal)
    (hch : s.changed_meta = false) (hhm : s.has_meta = true)
    (hv : dictGet? s.metadata "v" = some (.str "1.0.0"))
    (hn : dictGet? s.metadata "nid" = some (.int n))
    (hm : dictGet? s.metadata "meta" = some (.arr l))
    (hp : s.pdf_data.parsed = some root) :
    ∃ (s1 s2 s3 s4 s5 : PDFMeta) (r1 r2 r3 r5 : JsonVal) (out : HostBuf),
      meta_add s n1 o1 ns1 = .ok (s1, r1) ∧
      versionOf s1 = some (.str "1.0.1") ∧
      meta_add s1 n2 o2 ns2 = .ok (s2, r2) ∧
      versionOf s2 = some (.str "1.0.1") ∧
      meta_add s2 n3 o3 ns3 = .ok (s3, r3) ∧
      versionOf s3 = some (.str "1.0.1") ∧
      get_pdf s3 = .ok (s4, out) ∧
      versionOf s4 = some (.str "1.0.1") ∧ s4.changed_meta = false ∧
      meta_add s4 n4 o4 ns4 = .ok (s5, r5) ∧
      versionOf s5 = some (.str "1.0.2") := by
  obtain ⟨s1, r1, ha1, hc1, hh1, hpd1, hD1, hv1, hn1, hm1⟩ :=
    meta_add_bump_full hch hhm hn hm hv (by decide) (rfl) n1 ns1 o1
  have hv1' : dictGet? s1.metadata "v" = some (.str "1.0.1") := hv1
  obtain ⟨s2, r2, ha2, hc2, hh2, hpd2, hD2, hv2, hn2, hm2⟩ :=
    meta_add_dirty_full hc1 hn1 hm1 n2 ns2 o2
  have hv2' : dictGet? s2.metadata "v" = some (.str "1.0.1") := hv2.trans hv1'
  obtain ⟨s3, r3, ha3, hc3, hh3, hpd3, hD3, hv3, hn3, hm3⟩ :=
    meta_add_dirty_full hc2 hn2 hm2 n3 ns3 o3
  have hv3' : dictGet? s3.metadata "v" = some (.str "1.0.1") := hv3.trans hv2'
  have hp3 : s3.pdf_data.parsed = some root := by
    rw [hpd3, hpd2, hpd1]
    exact hp
  obtain ⟨s4, hw, hmd4, hch4, hhm4, _⟩ := write_metadata_of_parsed hp3
  have hpdf : get_pdf s3 = .ok (s4, s4.pdf_data) := get_pdf_of_write hc3 hw
  have hv4 : dictGet? s4.metadata "v" = some (.str "1.0.1") := by
    rw [hmd4]
    exact hv3'
  have hn4 : dictGet? s4.metadata "nid" = some (.int (n + 1 + 1 + 1)) := by
    rw [hmd4]
    exact hn3
  have hm4 : dictGet? s4.metadata "meta" =
      some (.arr (l ++ [mkRecord n ns1 n1 o1] ++ [mkRecord (n + 1) ns2 n2 o2] ++
        [mkRecord (n + 1 + 1) ns3 n3 o3])) := by
    rw [hmd4]
    exact hm3
  have hhm4' : s4.has_meta = true := by
    rw [hhm4, hh3, hh2]
    exact hh1
  obtain ⟨s5, r5, ha5, hc5, hh5, hpd5, hD5, hv5, hn5, hm5⟩ :=
    meta_add_bump_full hch4 hhm4' hn4 hm4 hv4 (by decide) (rfl) n4 ns4 o4
  have hv5' : dictGet? s5.metadata "v" = some (.str "1.0.2") := hv5
  exact ⟨s1, s2, s3, s4, s5, r1, r2, r3, r5, s4.pdf_data,
    ha1, hv1', ha2, hv2', ha3, hv3', hpdf, hv4, hch4, ha5, hv5'⟩

/-- Witness for C5: the concrete loaded store at version `"1.0.0"` over the
empty buffer, with three adds, a flush and a fourth add. -/
theorem C5_version_bump_witness :
    ∃ (s1 s2 s3 s4 s5 : PDFMeta) (r1 r2 r3 r5 : JsonVal) (out : HostBuf),
      meta_add loadedStore "a" .null "" = .ok (s1, r1) ∧
      versionOf s1 = some (.str "1.0.1") ∧
      meta_add s1 "b" .null "" = .ok (s2, r2) ∧
      versionOf s2 = some (.str "1.0.1") ∧
      meta_add s2 "c" .null "" = .ok (s3, r3) ∧
      versionOf s3 = some (.str "1.0.1") ∧
      get_pdf s3 = .ok (s4, out) ∧
      versionOf s4 = some (.str "1.0.1") ∧ s4.changed_meta = false ∧
      meta_add s4 "d" .null "" = .ok (s5, r5) ∧
      versionOf s5 = some (.str "1.0.2") :=
  C5_version_bump_once_per_episode loadedStore ⟨[], none, none⟩ 0 []
    "a" "b" "c" "d" "" "" "" "" .null .null .null .null
    rfl rfl rfl rfl rfl rfl

end PdfOps
